import Mathlib

/-!
Shallow embedding of `src/Tribler/Core/TorrentChecker/torrent_checker.py`
(the `TorrentChecker` class): session registry, backoff arithmetic,
GUI-request aggregation/reconciliation, result persistence/publication,
error handling and shutdown.

Python dicts are modelled as association lists (insertion ordered, as in
CPython 3.7+); Twisted deferreds are modelled by explicit tokens
(`Defer`) collected in lists; exceptions escaping a method are modelled
with `Except`, the error value carrying the state as mutated up to the
raise point.
-/

set_option linter.unusedVariables false

namespace TorrentChecker

/-- Association-list lookup, modelling a Python dict read `m[k]`
(`none` corresponds to a `KeyError` / a failed `get`). -/
def alLookup {κ β : Type} [DecidableEq κ] : List (κ × β) → κ → Option β
  | [], _ => none
  | (k1, v) :: rest, k => if k1 = k then some v else alLookup rest k

/-- Association-list in-place update of an existing key, modelling
`m[k] = v` when `k` is already present (the entry keeps its position). -/
def alSet {κ β : Type} [DecidableEq κ] : List (κ × β) → κ → β → List (κ × β)
  | [], _, _ => []
  | (k1, v1) :: rest, k, v =>
    if k1 = k then (k1, v) :: rest else (k1, v1) :: alSet rest k v

/-- Association-list deletion, modelling `del m[k]` (removes the first
entry with key `k`; with unique keys, the only one). -/
def alDel {κ β : Type} [DecidableEq κ] : List (κ × β) → κ → List (κ × β)
  | [], _ => []
  | (k1, v1) :: rest, k =>
    if k1 = k then rest else (k1, v1) :: alDel rest k

/-- Python dict assignment `m[k] = v`: update in place if the key exists,
append at the end otherwise. -/
def alInsert {κ β : Type} [DecidableEq κ] (m : List (κ × β)) (k : κ) (v : β) :
    List (κ × β) :=
  match alLookup m k with
  | some _ => alSet m k v
  | none => m ++ [(k, v)]

/-- A live probe session as seen by the checker: `tracker_url` is the
identity it is registered under (a URL string or the sentinel `"DHT"`),
`is_failed` its terminal failure flag, `sid` distinguishes sessions
(objects have identity in Python). The protocol internals live in the
external `session` module. -/
structure ProbeSession where
  sid : Nat
  tracker_url : String
  is_failed : Bool
deriving DecidableEq

/-- A completion signal collected in `session_stop_defer_list`:
`udp_port.stopListening`, `connection_pool.closeCachedConnections`, or a
`session.cleanup()` call (identified by the session id). -/
inductive Defer where
  | stopListening : Defer
  | closeConnections : Defer
  | cleanup : Nat → Defer
deriving DecidableEq

/-- Python exceptions raised by the registry bookkeeping: `KeyError`
from `self._session_list[url]` on an absent key, `ValueError` from
`list.remove` on an absent element. -/
inductive PyError where
  | keyError : PyError
  | valueError : PyError
deriving DecidableEq

/-- The mutable state of a `TorrentChecker` instance that the claims
are about: the `_should_stop` flag, the `_session_list` registry
(tracker identity to list of live sessions), the accumulated
`session_stop_defer_list`, the external tracker manager's per-tracker
failure counts, and a fresh-id counter for created sessions. -/
structure CheckerState where
  should_stop : Bool
  session_list : List (String × List ProbeSession)
  session_stop_defer_list : List Defer
  trackers : List (String × Nat)
  next_sid : Nat
deriving DecidableEq

/-- State built by `__init__`: `_should_stop = False`,
`_session_list = {'DHT': []}`, empty `session_stop_defer_list`. -/
def initialState (trackers : List (String × Nat)) : CheckerState :=
  ⟨false, [("DHT", [])], [], trackers, 0⟩

/-- Modelled from the spec: `tracker_manager.update_tracker_info` lives
in `Tribler/Core/Modules/tracker_manager.py`, which is not under `src/`.
Spec section 4.2: marking the outcome on the owning tracker's backoff
state, "success clears `failureCount`, reportable failure increments
it". An unknown tracker URL is left alone (nothing to update). -/
def update_tracker_info (trackers : List (String × Nat)) (url : String)
    (success : Bool) : List (String × Nat) :=
  match alLookup trackers url with
  | none => trackers
  | some f => alSet trackers url (if success then 0 else f + 1)

/-- Translation of `_create_session_for_request` (lines 280-288): build
a fresh session for `tracker_url`, create the registry entry if absent,
append the session to it. The external factory `create_tracker_session`
is modelled as allocating a fresh, not-failed session (its
`MalformedTrackerURLException` path is handled by the caller in
`_task_select_tracker`, outside these claims). -/
def create_session_for_request (st : CheckerState) (tracker_url : String) :
    CheckerState × ProbeSession :=
  let s : ProbeSession := ⟨st.next_sid, tracker_url, false⟩
  let m := match alLookup st.session_list tracker_url with
    | none => st.session_list ++ [(tracker_url, [s])]
    | some l => alSet st.session_list tracker_url (l ++ [s])
  ({ st with session_list := m, next_sid := st.next_sid + 1 }, s)

/-- Removal of the first occurrence of `s`, modelling Python's
`list.remove`; `none` when absent (Python raises `ValueError`). -/
def removeFirst : List ProbeSession → ProbeSession → Option (List ProbeSession)
  | [], _ => none
  | x :: rest, s =>
    if x = s then some rest else (removeFirst rest s).map (fun r => x :: r)

/-- Translation of `clean_session` (lines 290-297): report the session
outcome to the tracker manager (`not session.is_failed`), append the
session's `cleanup()` deferred, then remove the session from its
identity's list and drop the identity entirely when the list became
empty and the identity is not `"DHT"`. A `KeyError` (identity absent)
or `ValueError` (session absent from the list) escapes after the first
two effects have happened; the error carries the state at the raise
point. -/
def clean_session (st : CheckerState) (s : ProbeSession) :
    Except (PyError × CheckerState) CheckerState :=
  let st1 := { st with
    trackers := update_tracker_info st.trackers s.tracker_url (!s.is_failed),
    session_stop_defer_list := st.session_stop_defer_list ++ [Defer.cleanup s.sid] }
  match alLookup st1.session_list s.tracker_url with
  | none => Except.error (PyError.keyError, st1)
  | some l =>
    match removeFirst l s with
    | none => Except.error (PyError.valueError, st1)
    | some l2 =>
      let m1 := alSet st1.session_list s.tracker_url l2
      let m2 := if l2 = [] ∧ s.tracker_url ≠ "DHT" then alDel m1 s.tracker_url else m1
      Except.ok { st1 with session_list := m2 }

/-- The exception classes trapped by `on_session_error` (line 266). -/
inductive FailureKind where
  | valueError : FailureKind
  | cancelledError : FailureKind
  | connectingCancelledError : FailureKind
  | connectionLost : FailureKind
  | runtimeError : FailureKind
deriving DecidableEq

/-- The check `failure.check(CancelledError, ConnectingCancelledError)
is None` (line 274), negated: `true` when the failure is classified as
a cancellation. -/
def isCancelKind : FailureKind → Bool
  | FailureKind.cancelledError => true
  | FailureKind.connectingCancelledError => true
  | _ => false

/-- Translation of `on_session_error` (lines 258-278) for a trapped
failure kind: always `clean_session` the session, then update the
tracker manager with a failure only when the failure is not classified
as a cancellation. (Logging and the `failure.tracker_url` tagging are
state-irrelevant and omitted.) -/
def on_session_error (st : CheckerState) (s : ProbeSession) (k : FailureKind) :
    Except (PyError × CheckerState) CheckerState :=
  match clean_session st s with
  | Except.error e => Except.error e
  | Except.ok st1 =>
    Except.ok (if isCancelKind k then st1
      else { st1 with trackers := update_tracker_info st1.trackers s.tracker_url false })

/-- Translation of `_on_result_from_session` (lines 299-305): when
`_should_stop` is set the handler returns immediately without cleaning
the session; otherwise it cleans it. -/
def on_result_from_session (st : CheckerState) (s : ProbeSession) :
    Except (PyError × CheckerState) CheckerState :=
  if st.should_stop then Except.ok st else clean_session st s

/-- Translation of `shutdown` (lines 73-97): set `_should_stop`, append
the socket / connection-pool close deferreds when present, append a
`cleanup()` deferred for every session of every identity still in
`_session_list`, and return the `DeferredList` over the accumulated
`session_stop_defer_list` (second component: the deferreds the returned
deferred waits on). The registry itself is not modified. -/
def shutdown (st : CheckerState) (udp_active pool_active : Bool) :
    CheckerState × List Defer :=
  let d1 := st.session_stop_defer_list
    ++ (if udp_active then [Defer.stopListening] else [])
    ++ (if pool_active then [Defer.closeConnections] else [])
  let d2 := d1 ++ st.session_list.flatMap (fun p => p.2.map (fun s => Defer.cleanup s.sid))
  ({ st with should_stop := true, session_stop_defer_list := d2 }, d2)

/-- Backoff arithmetic of `_task_select_tracker` (lines 129-130): a
torrent is due for recheck when
`torrent.last_check + retry_interval * 2 ** tracker.failures < now`. -/
def torrentIsDue (retryInterval failures last_check now : Nat) : Bool :=
  decide (last_check + retryInterval * 2 ^ failures < now)

/-- Stated from the claim's words, for comparison with `torrentIsDue`:
due exactly when `now - lastCheckedAt >= base * 2 ^ min failures maxRetries`. -/
def dueForRecheckSpec (base maxRetries last failures now : Nat) : Bool :=
  decide (base * 2 ^ min failures maxRetries ≤ now - last)

/-- One entry of the `DeferredList` result handed to
`on_gui_request_completed`: a per-participant outcome, either a success
dict `{tracker: [{seeders, leechers, ...}]}` or a `Failure` carrying
the tracker URL and an error message. -/
inductive Outcome where
  | success : String → Nat → Nat → Outcome
  | failure : String → String → Outcome
deriving DecidableEq

/-- Whether the outcome is a success entry. -/
def Outcome.isSuccess : Outcome → Bool
  | Outcome.success _ _ _ => true
  | Outcome.failure _ _ => false

/-- The `(seeders, leechers)` pairs of the successful outcomes, in
order. -/
def successPairs (l : List Outcome) : List (Nat × Nat) :=
  l.filterMap (fun o => match o with
    | Outcome.success _ s le => some (s, le)
    | Outcome.failure _ _ => none)

/-- One loop iteration of `on_gui_request_completed` (lines 185-198)
restricted to the `torrent_update_dict` seeder/leecher fields: a failed
outcome contributes nothing; a successful outcome replaces the current
pair when it has strictly more seeders, or equal seeders and strictly
more leechers. -/
def reconcileStep (d : Nat × Nat) (o : Outcome) : Nat × Nat :=
  match o with
  | Outcome.failure _ _ => d
  | Outcome.success _ s l =>
    if s > d.1 ∨ (s = d.1 ∧ l > d.2) then (s, l) else d

/-- The reconciled `(seeders, leechers)` pair of
`on_gui_request_completed`: the loop runs over `reversed(result)`
starting from the initial dict value `(0, 0)`. -/
def reconciledPair (result : List Outcome) : Nat × Nat :=
  result.reverse.foldl reconcileStep (0, 0)

/-- A value of the `final_response` dict: an `{'error': msg}` entry for
a failed participant or the tracker's info dict (seeders/leechers) for
a successful one. -/
inductive RespEntry where
  | errorEntry : String → RespEntry
  | info : Nat → Nat → RespEntry
deriving DecidableEq

/-- One loop iteration of `on_gui_request_completed` (lines 185-198) in
full: the `final_response` dict assignment together with the
seeder/leecher maximum of `reconcileStep`. -/
def guiStep (acc : List (String × RespEntry) × (Nat × Nat)) (o : Outcome) :
    List (String × RespEntry) × (Nat × Nat) :=
  match o with
  | Outcome.failure url msg => (alInsert acc.1 url (RespEntry.errorEntry msg), acc.2)
  | Outcome.success t s l =>
    (alInsert acc.1 t (RespEntry.info s l),
     if s > acc.2.1 ∨ (s = acc.2.1 ∧ l > acc.2.2) then (s, l) else acc.2)

/-- A stored `TorrentState` row: seeders, leechers, last check time and
the torrent's tracker URLs (the relationship read by
`get_valid_trackers_of_torrent`). -/
structure TorrentRecord where
  seeders : Nat
  leechers : Nat
  last_check : Nat
  trackers : List String
deriving DecidableEq

/-- The `torrent_update_dict` built by `on_gui_request_completed`. -/
structure TorrentUpdate where
  infohash : Nat
  seeders : Nat
  leechers : Nat
  last_check : Nat
deriving DecidableEq

/-- The `NTFY_TORRENT`/`NTFY_UPDATE` notification payload emitted at
lines 206-210. -/
structure Notification where
  infohash : Nat
  num_seeders : Nat
  num_leechers : Nat
  last_tracker_check : Nat
  health : String
deriving DecidableEq

/-- Translation of `_update_torrent_result` (lines 307-323): look up the
`TorrentState` row by infohash; if missing, abandon the update (lines
318-320); otherwise overwrite `seeders`, `leechers` and `last_check`
together (the tracker relationship is untouched). -/
def update_torrent_result (db : List (Nat × TorrentRecord)) (u : TorrentUpdate) :
    List (Nat × TorrentRecord) :=
  match alLookup db u.infohash with
  | none => db
  | some t =>
    alSet db u.infohash
      { t with seeders := u.seeders, leechers := u.leechers, last_check := u.last_check }

/-- Translation of `publish_torrent_result` (lines 325-333): a
zero-seeder result is never queued; otherwise the content tuple is
queued on the popularity community when it is available. -/
def publish_torrent_result (popAvailable : Bool) (u : TorrentUpdate) :
    Option (Nat × Nat × Nat × Nat) :=
  if u.seeders = 0 then none
  else if popAvailable then some (u.infohash, u.seeders, u.leechers, u.last_check)
  else none

/-- Everything `on_gui_request_completed` produces: the returned
`final_response`, the store after `_update_torrent_result`, the content
queued by `publish_torrent_result` (if any), and the notification. -/
structure GuiCompletion where
  final_response : List (String × RespEntry)
  db : List (Nat × TorrentRecord)
  published : Option (Nat × Nat × Nat × Nat)
  notification : Notification
deriving DecidableEq

/-- Translation of `on_gui_request_completed` (lines 181-211): fold the
reversed outcome list building `final_response` and the reconciled
seeder/leecher pair, persist the `torrent_update_dict`, publish it, and
emit the torrent-updated notification. -/
def on_gui_request_completed (infohash now : Nat) (result : List Outcome)
    (db : List (Nat × TorrentRecord)) (popAvailable : Bool) : GuiCompletion :=
  let fp := result.reverse.foldl guiStep ([], (0, 0))
  let u : TorrentUpdate := ⟨infohash, fp.2.1, fp.2.2, now⟩
  { final_response := fp.1
    db := update_torrent_result db u
    published := publish_torrent_result popAvailable u
    notification := ⟨infohash, u.seeders, u.leechers, now, "updated"⟩ }

/-- Result of `add_gui_request`: either the immediate `succeed({"db":
...})` short-circuit answer built from the stored record, or the
pending `DeferredList` over the sessions created for the check. -/
inductive GuiResult where
  | fromDb : Nat → Nat → Nat → GuiResult
  | pending : List Nat → GuiResult
deriving DecidableEq

/-- The fan-out part of `add_gui_request` (lines 242-256): create one
session per tracker URL, then append a `FakeDHTSession` directly to
`_session_list['DHT']` (Python would raise `KeyError` were `"DHT"`
absent; the registry invariant keeps it present, and the unreachable
branch leaves the list unchanged here). Returns the state and the
pending session ids. -/
def addGuiProceed (st : CheckerState) (tracker_set : List String) :
    CheckerState × GuiResult :=
  let stp := tracker_set.foldl (fun acc url =>
      let c := create_session_for_request acc.1 url
      (c.1, acc.2 ++ [c.2.sid])) (st, ([] : List Nat))
  let dht : ProbeSession := ⟨stp.1.next_sid, "DHT", false⟩
  let m := match alLookup stp.1.session_list "DHT" with
    | some l => alSet stp.1.session_list "DHT" (l ++ [dht])
    | none => stp.1.session_list
  ({ stp.1 with next_sid := stp.1.next_sid + 1, session_list := m },
   GuiResult.pending (stp.2 ++ [dht.sid]))

/-- Translation of `add_gui_request` (lines 213-256): when the stored
record exists, was checked less than `_torrent_check_interval` ago and
`scrape_now` is false, return the stored seeders/leechers immediately
(no session is created, nothing is written); otherwise fan out to the
record's valid trackers (filtered by the external `is_valid_url`,
passed in as `validUrl`) plus the DHT session. The store is only read
here; writes happen later in `on_gui_request_completed`. -/
def add_gui_request (validUrl : String → Bool) (st : CheckerState)
    (db : List (Nat × TorrentRecord)) (infohash now interval : Nat)
    (scrape_now : Bool) : CheckerState × GuiResult :=
  match alLookup db infohash with
  | some r =>
    if (now : Int) - (r.last_check : Int) < (interval : Int) ∧ scrape_now = false then
      (st, GuiResult.fromDb r.seeders r.leechers infohash)
    else addGuiProceed st (r.trackers.filter validUrl)
  | none => addGuiProceed st []

/-- The registry invariant of the claims: dict keys are unique (a
Python dict), the `"DHT"` sentinel entry is present, and every non-DHT
identity's session list is non-empty. -/
def registryInv (m : List (String × List ProbeSession)) : Prop :=
  (m.map Prod.fst).Nodup
  ∧ (alLookup m "DHT").isSome = true
  ∧ ∀ p ∈ m, p.1 ≠ "DHT" → p.2 ≠ []

instance (m : List (String × List ProbeSession)) : Decidable (registryInv m) := by
  unfold registryInv
  infer_instance

/-! ### Association-list lemmas -/

theorem alLookup_eq_none {κ β : Type} [DecidableEq κ] (m : List (κ × β)) (k : κ) :
    alLookup m k = none ↔ k ∉ m.map Prod.fst := by
  induction m with
  | nil => simp [alLookup]
  | cons p rest ih =>
    by_cases h : p.1 = k
    · simp [alLookup, h]
    · simp only [alLookup, if_neg h, ih, List.map_cons, List.mem_cons]
      constructor
      · intro hk hc
        rcases hc with hc | hc
        · exact h hc.symm
        · exact hk hc
      · intro hk hc
        exact hk (Or.inr hc)

theorem alLookup_append_some {κ β : Type} [DecidableEq κ] {m : List (κ × β)}
    {k : κ} {v : β} (n : List (κ × β)) (h : alLookup m k = some v) :
    alLookup (m ++ n) k = some v := by
  induction m with
  | nil => simp [alLookup] at h
  | cons p rest ih =>
    by_cases hk : p.1 = k
    · simpa [alLookup, hk] using h
    · simp only [alLookup, if_neg hk, List.cons_append] at h ⊢
      exact ih h

theorem alLookup_append_none {κ β : Type} [DecidableEq κ] {m : List (κ × β)}
    {k : κ} (n : List (κ × β)) (h : alLookup m k = none) :
    alLookup (m ++ n) k = alLookup n k := by
  induction m with
  | nil => simp
  | cons p rest ih =>
    by_cases hk : p.1 = k
    · simp [alLookup, hk] at h
    · simp only [alLookup, if_neg hk, List.cons_append] at h ⊢
      exact ih h

theorem keys_alSet {κ β : Type} [DecidableEq κ] (m : List (κ × β)) (k : κ) (v : β) :
    (alSet m k v).map Prod.fst = m.map Prod.fst := by
  induction m with
  | nil => rfl
  | cons p rest ih =>
    by_cases hk : p.1 = k
    · simp [alSet, hk]
    · simp [alSet, hk, ih]

theorem alLookup_alSet_self {κ β : Type} [DecidableEq κ] {m : List (κ × β)}
    {k : κ} {w : β} (v : β) (h : alLookup m k = some w) :
    alLookup (alSet m k v) k = some v := by
  induction m with
  | nil => simp [alLookup] at h
  | cons p rest ih =>
    by_cases hk : p.1 = k
    · simp [alLookup, alSet, hk]
    · simp only [alLookup, if_neg hk] at h
      simp only [alSet, if_neg hk, alLookup, if_neg hk]
      exact ih h

theorem alLookup_alSet_ne {κ β : Type} [DecidableEq κ] (m : List (κ × β))
    {k k2 : κ} (v : β) (h : k2 ≠ k) :
    alLookup (alSet m k v) k2 = alLookup m k2 := by
  induction m with
  | nil => rfl
  | cons p rest ih =>
    by_cases hk : p.1 = k
    · have hkk : k ≠ k2 := fun hc => h hc.symm
      simp [alSet, alLookup, hk, hkk]
    · by_cases hk2 : p.1 = k2
      · simp [alSet, alLookup, hk, hk2, h]
      · simp [alSet, alLookup, hk, hk2, ih]

theorem mem_alSet {κ β : Type} [DecidableEq κ] {m : List (κ × β)}
    {k : κ} {v : β} {p : κ × β} (h : p ∈ alSet m k v) : p ∈ m ∨ p = (k, v) := by
  induction m with
  | nil => simp [alSet] at h
  | cons q rest ih =>
    by_cases hk : q.1 = k
    · simp only [alSet, if_pos hk, List.mem_cons] at h
      rcases h with h | h
      · exact Or.inr (by rw [h, hk])
      · exact Or.inl (List.mem_cons_of_mem _ h)
    · simp only [alSet, if_neg hk, List.mem_cons] at h
      rcases h with h | h
      · exact Or.inl (h ▸ List.mem_cons_self _ _)
      · rcases ih h with h2 | h2
        · exact Or.inl (List.mem_cons_of_mem _ h2)
        · exact Or.inr h2

theorem alDel_sublist {κ β : Type} [DecidableEq κ] (m : List (κ × β)) (k : κ) :
    List.Sublist (alDel m k) m := by
  induction m with
  | nil => simp [alDel]
  | cons p rest ih =>
    by_cases hk : p.1 = k
    · simp [alDel, hk]
    · simpa [alDel, hk] using ih.cons₂ p

theorem alLookup_alDel_ne {κ β : Type} [DecidableEq κ] (m : List (κ × β))
    {k k2 : κ} (h : k2 ≠ k) :
    alLookup (alDel m k) k2 = alLookup m k2 := by
  induction m with
  | nil => rfl
  | cons p rest ih =>
    by_cases hk : p.1 = k
    · have hkk : k ≠ k2 := fun hc => h hc.symm
      simp [alDel, alLookup, hk, hkk]
    · by_cases hk2 : p.1 = k2
      · simp [alDel, alLookup, hk, hk2, h]
      · simp [alDel, alLookup, hk, hk2, ih]

theorem mem_alDel_fst_ne {κ β : Type} [DecidableEq κ] {m : List (κ × β)}
    {k : κ} {p : κ × β} (hn : (m.map Prod.fst).Nodup) (h : p ∈ alDel m k) :
    p.1 ≠ k := by
  induction m with
  | nil => simp [alDel] at h
  | cons q rest ih =>
    simp only [List.map_cons, List.nodup_cons] at hn
    by_cases hk : q.1 = k
    · simp only [alDel, if_pos hk] at h
      intro hc
      exact hn.1 (hk ▸ hc ▸ List.mem_map_of_mem Prod.fst h)
    · simp only [alDel, if_neg hk, List.mem_cons] at h
      rcases h with h | h
      · rw [h]; exact hk
      · exact ih hn.2 h

theorem alLookup_mem_values {κ β : Type} [DecidableEq κ] {m : List (κ × β)}
    {k : κ} {v : β} (h : alLookup m k = some v) : v ∈ m.map Prod.snd := by
  induction m with
  | nil => simp [alLookup] at h
  | cons p rest ih =>
    by_cases hk : p.1 = k
    · simp only [alLookup, if_pos hk, Option.some.injEq] at h
      subst h
      exact List.mem_map_of_mem Prod.snd (List.mem_cons_self _ _)
    · simp only [alLookup, if_neg hk] at h
      exact List.mem_cons_of_mem _ (ih h)

theorem removeFirst_eq_none {l : List ProbeSession} {s : ProbeSession}
    (h : s ∉ l) : removeFirst l s = none := by
  induction l with
  | nil => rfl
  | cons x rest ih =>
    simp only [List.mem_cons, not_or] at h
    have hx : x ≠ s := fun hc => h.1 hc.symm
    simp [removeFirst, hx, ih h.2]

/-! ### Lexicographic order on (seeders, leechers) pairs -/

/-- The reconciliation preference order: fewer seeders, or equal
seeders and at most as many leechers. -/
def lexLe (p q : Nat × Nat) : Prop :=
  p.1 < q.1 ∨ (p.1 = q.1 ∧ p.2 ≤ q.2)

instance (p q : Nat × Nat) : Decidable (lexLe p q) := by
  unfold lexLe
  infer_instance

theorem lexLe_refl (p : Nat × Nat) : lexLe p p := by
  unfold lexLe
  omega

theorem lexLe_trans {p q r : Nat × Nat} (h1 : lexLe p q) (h2 : lexLe q r) :
    lexLe p r := by
  unfold lexLe at *
  omega

/-! ### Reconciliation fold lemmas -/

theorem lexLe_reconcileStep (d : Nat × Nat) (o : Outcome) :
    lexLe d (reconcileStep d o) := by
  cases o with
  | failure u m => exact lexLe_refl d
  | success t s l =>
    simp only [reconcileStep]
    split
    · unfold lexLe at *
      omega
    · exact lexLe_refl d

theorem lexLe_self_reconcileStep (d : Nat × Nat) (t : String) (s l : Nat) :
    lexLe (s, l) (reconcileStep d (Outcome.success t s l)) := by
  simp only [reconcileStep]
  split
  · exact lexLe_refl _
  · unfold lexLe at *
    omega

theorem reconcileStep_cases (d : Nat × Nat) (o : Outcome) :
    reconcileStep d o = d ∨ ∃ t s l, o = Outcome.success t s l ∧ reconcileStep d o = (s, l) := by
  cases o with
  | failure u m => exact Or.inl rfl
  | success t s l =>
    simp only [reconcileStep]
    split
    · exact Or.inr ⟨t, s, l, rfl, rfl⟩
    · exact Or.inl rfl

theorem mem_successPairs {l : List Outcome} {p : Nat × Nat} :
    p ∈ successPairs l ↔ ∃ t, Outcome.success t p.1 p.2 ∈ l := by
  unfold successPairs
  rw [List.mem_filterMap]
  constructor
  · rintro ⟨o, ho, hp⟩
    cases o with
    | failure u m => simp at hp
    | success t s le =>
      simp only [Option.some.injEq] at hp
      subst hp
      exact ⟨t, ho⟩
  · rintro ⟨t, ht⟩
    exact ⟨Outcome.success t p.1 p.2, ht, rfl⟩

theorem successPairs_reverse (l : List Outcome) (p : Nat × Nat) :
    p ∈ successPairs l.reverse ↔ p ∈ successPairs l := by
  rw [mem_successPairs, mem_successPairs]
  simp

theorem foldl_reconcile_mem (l : List Outcome) (d : Nat × Nat) :
    l.foldl reconcileStep d = d ∨ l.foldl reconcileStep d ∈ successPairs l := by
  induction l generalizing d with
  | nil => exact Or.inl rfl
  | cons o rest ih =>
    rcases ih (reconcileStep d o) with h | h
    · rcases reconcileStep_cases d o with h2 | ⟨t, s, le, ho, h2⟩
      · exact Or.inl (by simpa [h2] using h)
      · refine Or.inr ?_
        rw [List.foldl_cons, h, h2, ho]
        rw [mem_successPairs]
        exact ⟨t, List.mem_cons_self _ _⟩
    · refine Or.inr ?_
      rw [List.foldl_cons]
      rw [mem_successPairs] at h ⊢
      rcases h with ⟨t, ht⟩
      exact ⟨t, List.mem_cons_of_mem _ ht⟩

theorem foldl_reconcile_le_init (l : List Outcome) (d : Nat × Nat) :
    lexLe d (l.foldl reconcileStep d) := by
  induction l generalizing d with
  | nil => exact lexLe_refl d
  | cons o rest ih =>
    exact lexLe_trans (lexLe_reconcileStep d o) (ih (reconcileStep d o))

theorem foldl_reconcile_ub (l : List Outcome) (d : Nat × Nat) (p : Nat × Nat)
    (hp : p ∈ successPairs l) : lexLe p (l.foldl reconcileStep d) := by
  induction l generalizing d with
  | nil => simp [successPairs] at hp
  | cons o rest ih =>
    rw [mem_successPairs] at hp
    rcases hp with ⟨t, ht⟩
    rcases List.mem_cons.1 ht with ho | ho
    · rw [List.foldl_cons, ← ho]
      exact lexLe_trans (lexLe_self_reconcileStep d t p.1 p.2)
        (foldl_reconcile_le_init rest _)
    · rw [List.foldl_cons]
      exact ih _ (mem_successPairs.2 ⟨t, ho⟩)

theorem foldl_reconcile_filter (l : List Outcome) (d : Nat × Nat) :
    l.foldl reconcileStep d = (l.filter Outcome.isSuccess).foldl reconcileStep d := by
  induction l generalizing d with
  | nil => rfl
  | cons o rest ih =>
    cases o with
    | failure u m =>
      simp [List.filter, Outcome.isSuccess, reconcileStep, ih]
    | success t s le =>
      simp [List.filter, Outcome.isSuccess, ih]

theorem reconcileStep_left_comm (d : Nat × Nat) (a b : Outcome) :
    reconcileStep (reconcileStep d a) b = reconcileStep (reconcileStep d b) a := by
  cases a with
  | failure u m => rfl
  | success ta sa la =>
    cases b with
    | failure u m => rfl
    | success tb sb lb =>
      simp only [reconcileStep]
      by_cases h1 : sa > d.1 ∨ (sa = d.1 ∧ la > d.2) <;>
        by_cases h2 : sb > d.1 ∨ (sb = d.1 ∧ lb > d.2) <;>
        simp [h1, h2] <;>
        (try split_ifs) <;>
        first
          | rfl
          | (simp only [Prod.mk.injEq]; omega)
          | omega

theorem foldl_reconcile_perm {l1 l2 : List Outcome} (h : l1.Perm l2) :
    ∀ d, l1.foldl reconcileStep d = l2.foldl reconcileStep d := by
  induction h with
  | nil => intro d; rfl
  | cons x _ ih => intro d; simp only [List.foldl_cons]; exact ih _
  | swap x y l =>
    intro d
    simp only [List.foldl_cons]
    rw [reconcileStep_left_comm]
  | trans _ _ ih1 ih2 => intro d; rw [ih1, ih2]

theorem foldl_reconcile_all_failed {l : List Outcome}
    (h : ∀ o ∈ l, o.isSuccess = false) (d : Nat × Nat) :
    l.foldl reconcileStep d = d := by
  induction l generalizing d with
  | nil => rfl
  | cons o rest ih =>
    cases o with
    | failure u m =>
      rw [List.foldl_cons]
      exact ih (fun o ho => h o (List.mem_cons_of_mem _ ho)) d
    | success t s le =>
      have := h _ (List.mem_cons_self _ _)
      simp [Outcome.isSuccess] at this

theorem lexLe_zero_eq {p : Nat × Nat} (h : lexLe p (0, 0)) : p = (0, 0) := by
  unfold lexLe at h
  have h1 : p.1 = 0 := by omega
  have h2 : p.2 = 0 := by omega
  calc p = (p.1, p.2) := rfl
    _ = (0, 0) := by rw [h1, h2]

theorem guiStep_snd (l : List Outcome) :
    ∀ (fr : List (String × RespEntry)) (d : Nat × Nat),
      (l.foldl guiStep (fr, d)).2 = l.foldl reconcileStep d := by
  induction l with
  | nil => intro fr d; rfl
  | cons o rest ih =>
    intro fr d
    cases o with
    | failure u m =>
      simp only [List.foldl_cons, guiStep, reconcileStep]
      exact ih _ d
    | success t s le =>
      simp only [List.foldl_cons, guiStep, reconcileStep]
      exact ih _ _

/-! ### Registry-invariant preservation lemmas -/

theorem registryInv_append_new {m : List (String × List ProbeSession)}
    (h : registryInv m) {url : String} (s : ProbeSession)
    (hm : alLookup m url = none) : registryInv (m ++ [(url, [s])]) := by
  obtain ⟨hnd, hdht, hne⟩ := h
  have hnotin : url ∉ m.map Prod.fst := (alLookup_eq_none _ _).1 hm
  refine ⟨?_, ?_, ?_⟩
  · rw [List.map_append, List.nodup_append]
    exact ⟨hnd, by simp, fun a ha hb => hnotin ((by simpa using hb) ▸ ha)⟩
  · obtain ⟨v, hv⟩ := Option.isSome_iff_exists.1 hdht
    rw [alLookup_append_some _ hv]
    rfl
  · intro p hp hDHT
    rcases List.mem_append.1 hp with hpm | hpe
    · exact hne p hpm hDHT
    · rw [List.mem_singleton.1 hpe]
      simp

theorem registryInv_alSet {m : List (String × List ProbeSession)} {u : String}
    {l : List ProbeSession} (h : registryInv m) (hm : alLookup m u = some l)
    (l2 : List ProbeSession) (himp : u ≠ "DHT" → l2 ≠ []) :
    registryInv (alSet m u l2) := by
  obtain ⟨hnd, hdht, hne⟩ := h
  refine ⟨?_, ?_, ?_⟩
  · rw [keys_alSet]
    exact hnd
  · by_cases hu : u = "DHT"
    · subst hu
      rw [alLookup_alSet_self l2 hm]
      rfl
    · rw [alLookup_alSet_ne m l2 (fun hc => hu hc.symm)]
      exact hdht
  · intro p hp hDHT
    rcases mem_alSet hp with hpm | hpe
    · exact hne p hpm hDHT
    · rw [hpe] at hDHT ⊢
      exact himp hDHT

theorem registryInv_alDel_alSet {m : List (String × List ProbeSession)} {u : String}
    {l : List ProbeSession} (h : registryInv m) (hm : alLookup m u = some l)
    (l2 : List ProbeSession) (hu : u ≠ "DHT") :
    registryInv (alDel (alSet m u l2) u) := by
  obtain ⟨hnd, hdht, hne⟩ := h
  have hnd1 : ((alSet m u l2).map Prod.fst).Nodup := by
    rw [keys_alSet]
    exact hnd
  refine ⟨?_, ?_, ?_⟩
  · exact List.Nodup.sublist (List.Sublist.map Prod.fst (alDel_sublist _ _)) hnd1
  · rw [alLookup_alDel_ne _ (fun hc => hu hc.symm),
      alLookup_alSet_ne m l2 (fun hc => hu hc.symm)]
    exact hdht
  · intro p hp hDHT
    have hp1 : p.1 ≠ u := mem_alDel_fst_ne hnd1 hp
    have hp2 : p ∈ alSet m u l2 := (alDel_sublist _ _).subset hp
    rcases mem_alSet hp2 with hpm | hpe
    · exact hne p hpm hDHT
    · exact absurd (by rw [hpe]) hp1

/-! ### Claim theorems -/

/-- C1: for every list of per-participant outcomes of an aggregated
health check whose set of successful outcomes is non-empty, the
reconciled `(seeders, leechers)` pair of `on_gui_request_completed` is
among the successful pairs, is maximal for the order
max-seeders-then-max-leechers, and depends only on the successful
outcomes (failed outcomes contribute nothing). -/
theorem claim_C1_reconciliation_max (result : List Outcome)
    (h : successPairs result ≠ []) :
    reconciledPair result ∈ successPairs result
    ∧ (∀ p ∈ successPairs result, lexLe p (reconciledPair result))
    ∧ reconciledPair result = reconciledPair (result.filter Outcome.isSuccess) := by
  have hub : ∀ p ∈ successPairs result, lexLe p (reconciledPair result) := by
    intro p hp
    exact foldl_reconcile_ub result.reverse (0, 0) p ((successPairs_reverse result p).2 hp)
  refine ⟨?_, hub, ?_⟩
  · rcases foldl_reconcile_mem result.reverse (0, 0) with hm | hm
    · rcases List.exists_mem_of_ne_nil _ h with ⟨p0, hp0⟩
      have hz : reconciledPair result = (0, 0) := hm
      have hle : lexLe p0 (0, 0) := hz ▸ hub p0 hp0
      have : p0 = (0, 0) := lexLe_zero_eq hle
      rw [hz]
      exact this ▸ hp0
    · exact (successPairs_reverse result _).1 hm
  · unfold reconciledPair
    rw [foldl_reconcile_filter result.reverse (0, 0), List.filter_reverse]

/-- Witness for C1 at the claim's concrete input: outcomes
`(3,1) failed, (5,2), (5,9)` reconcile to `(5,9)`. -/
theorem claim_C1_witness :
    successPairs [Outcome.failure "t0" "timeout", Outcome.success "t1" 5 2,
        Outcome.success "t2" 5 9] ≠ []
    ∧ reconciledPair [Outcome.failure "t0" "timeout", Outcome.success "t1" 5 2,
        Outcome.success "t2" 5 9]
      ∈ successPairs [Outcome.failure "t0" "timeout", Outcome.success "t1" 5 2,
        Outcome.success "t2" 5 9]
    ∧ reconciledPair [Outcome.failure "t0" "timeout", Outcome.success "t1" 5 2,
        Outcome.success "t2" 5 9] = (5, 9) :=
  ⟨by decide,
   (claim_C1_reconciliation_max
     [Outcome.failure "t0" "timeout", Outcome.success "t1" 5 2,
      Outcome.success "t2" 5 9] (by decide)).1,
   by decide⟩

/-- C2 counterexample: with the default configuration
(`baseRetryInterval = 30`, `maxRetries = 8`), at
`lastCheckedAt = 0`, `failureCount = 9`, `now = 15360` the claimed
clamped formula says the torrent is due, but the code's check
(`last_check + interval * 2 ** failures < now`, no clamping, strict
comparison) says it is not. -/
theorem claim_C2_counterexample :
    dueForRecheckSpec 30 8 0 9 15360 = true ∧ torrentIsDue 30 9 0 15360 = false := by
  decide

/-- C2 amended: a tracker's torrent is due for recheck exactly when
`lastCheckedAt + baseRetryInterval * 2 ^ failureCount < now` — the
exponent is not clamped and the comparison is strict — and the check
is monotonically less permissive as the failure count grows. -/
theorem claim_C2_amended (base f1 f2 last now : Nat) (h : f1 ≤ f2) :
    (torrentIsDue base f1 last now = true ↔ last + base * 2 ^ f1 < now)
    ∧ (torrentIsDue base f2 last now = true → torrentIsDue base f1 last now = true) := by
  constructor
  · simp [torrentIsDue]
  · intro hd
    have hp : 2 ^ f1 ≤ 2 ^ f2 := Nat.pow_le_pow_right (by omega) h
    have hm : base * 2 ^ f1 ≤ base * 2 ^ f2 := Nat.mul_le_mul (Nat.le_refl base) hp
    simp only [torrentIsDue, decide_eq_true_eq] at hd ⊢
    omega

/-- Witness for C2 amended at `base = 30`, `failures = 0 ≤ 1`,
`last = 0`, `now = 31`. -/
theorem claim_C2_witness :
    (0 : Nat) ≤ 1
    ∧ (torrentIsDue 30 0 0 31 = true ↔ 0 + 30 * 2 ^ 0 < 31)
    ∧ (torrentIsDue 30 1 0 31 = true → torrentIsDue 30 0 0 31 = true) :=
  ⟨by decide, (claim_C2_amended 30 0 1 0 31 (by decide)).1,
   (claim_C2_amended 30 0 1 0 31 (by decide)).2⟩

/-- C7: reconciliation is order-independent — permuting the arrival
order of the per-participant outcomes yields the same final
`(seeders, leechers)` pair. -/
theorem claim_C7_reconciliation_perm (r1 r2 : List Outcome) (h : r1.Perm r2) :
    reconciledPair r1 = reconciledPair r2 := by
  unfold reconciledPair
  exact foldl_reconcile_perm
    (((List.reverse_perm r1).trans h).trans (List.reverse_perm r2).symm) (0, 0)

/-- Witness for C7 at a concrete permutation of three outcomes. -/
theorem claim_C7_witness :
    ([Outcome.success "a" 1 2, Outcome.failure "b" "err", Outcome.success "c" 5 0].Perm
      [Outcome.success "c" 5 0, Outcome.success "a" 1 2, Outcome.failure "b" "err"])
    ∧ reconciledPair [Outcome.success "a" 1 2, Outcome.failure "b" "err",
        Outcome.success "c" 5 0]
      = reconciledPair [Outcome.success "c" 5 0, Outcome.success "a" 1 2,
        Outcome.failure "b" "err"] :=
  ⟨by decide, claim_C7_reconciliation_perm _ _ (by decide)⟩

/-- An in-flight session for tracker `"a"` that terminated failed while
its failure was classified as a cancellation (shutdown racing the
probe). -/
def c3_session : ProbeSession := ⟨0, "a", true⟩

/-- Checker state for the C3 evaluation: tracker `"a"` has failure
count `0` and owns the one in-flight session. -/
def c3_state : CheckerState := ⟨false, [("DHT", []), ("a", [c3_session])], [], [("a", 0)], 1⟩

/-- C3 evaluated at the failing input: handling a cancellation-classified
failure DOES change the owning tracker's failure count. `on_session_error`
skips its own `update_tracker_info(url, False)` on the cancellation path,
but the `clean_session` call it makes first reports
`not session.is_failed`, so the count still goes from `0` to `1` for a
failed session (and would be reset to `0` for a non-failed one) — against
the code's own comment "Do not update if the connection got cancelled". -/
theorem claim_C3_cancellation_updates_failures :
    alLookup c3_state.trackers "a" = some 0
    ∧ Except.map (fun st => alLookup st.trackers "a")
        (on_session_error c3_state c3_session FailureKind.cancelledError)
      = Except.ok (some 1) :=
  ⟨rfl, rfl⟩

/-- A session registered under the non-DHT identity `"t"` at shutdown
time. -/
def c4_session : ProbeSession := ⟨7, "t", false⟩

/-- Checker state at shutdown time for the C4 counterexample. -/
def c4_state : CheckerState := ⟨false, [("DHT", []), ("t", [c4_session])], [], [], 8⟩

/-- C4 counterexample: after `shutdown` runs, the session registry
still holds a session under the non-DHT identity `"t"` — `shutdown`
appends every session's `cleanup()` deferred but never removes sessions
from `_session_list` (and `_on_result_from_session` returns without
cleaning once `_should_stop` is set), so the registry does not end up
empty for non-DHT identities. -/
theorem claim_C4_counterexample :
    (shutdown c4_state true true).1.should_stop = true
    ∧ alLookup (shutdown c4_state true true).1.session_list "t" = some [c4_session] :=
  ⟨rfl, rfl⟩

/-- C4 amended: the deferred returned by `shutdown` waits on every
completion signal ever collected — every previously started cleanup,
the socket and pool close signals, and a cleanup for every session
still registered under any identity — but the registry mapping itself
is left unchanged by `shutdown`, and a probe result arriving after
shutdown is dropped without touching the state. -/
theorem claim_C4_amended (st : CheckerState) (udp pool : Bool) :
    (shutdown st udp pool).1.session_list = st.session_list
    ∧ (shutdown st udp pool).1.should_stop = true
    ∧ (∀ d ∈ st.session_stop_defer_list, d ∈ (shutdown st udp pool).2)
    ∧ (∀ url ss, (url, ss) ∈ st.session_list → ∀ s ∈ ss,
        Defer.cleanup s.sid ∈ (shutdown st udp pool).2)
    ∧ (∀ s, on_result_from_session (shutdown st udp pool).1 s
        = Except.ok (shutdown st udp pool).1) := by
  refine ⟨rfl, rfl, ?_, ?_, ?_⟩
  · intro d hd
    simp only [shutdown, List.mem_append]
    exact Or.inl (Or.inl (Or.inl hd))
  · intro url ss hm s hs
    simp only [shutdown, List.mem_append]
    refine Or.inr ?_
    rw [List.mem_flatMap]
    exact ⟨(url, ss), hm, List.mem_map_of_mem _ hs⟩
  · intro s
    simp [on_result_from_session, shutdown]

/-- Witness for C4 amended: the cleanup of the registered session is
among the deferreds the shutdown result waits on. -/
theorem claim_C4_witness :
    (("t", [c4_session]) ∈ c4_state.session_list ∧ c4_session ∈ [c4_session])
    ∧ Defer.cleanup 7 ∈ (shutdown c4_state true true).2 :=
  ⟨⟨by decide, by decide⟩,
   (claim_C4_amended c4_state true true).2.2.2.1 "t" [c4_session] (by decide)
     c4_session (by decide)⟩

/-- C5: a reconciled result with zero seeders is still persisted to the
store (the full triple, timestamp included, overwriting the row when it
exists), but nothing is ever queued on the popularity community for it;
content is queued only when the reconciled seeder count is positive. -/
theorem claim_C5_zero_seeders_not_published (infohash now : Nat)
    (result : List Outcome) (db : List (Nat × TorrentRecord)) (pop : Bool)
    (r : TorrentRecord) (hdb : alLookup db infohash = some r) :
    ((reconciledPair result).1 = 0 →
      (on_gui_request_completed infohash now result db pop).db
        = alSet db infohash
            { r with seeders := 0, leechers := (reconciledPair result).2,
                     last_check := now }
      ∧ (on_gui_request_completed infohash now result db pop).published = none)
    ∧ ((on_gui_request_completed infohash now result db pop).published ≠ none →
        0 < (reconciledPair result).1) := by
  have h1 : (result.reverse.foldl guiStep ([], (0, 0))).2.1 = (reconciledPair result).1 := by
    rw [guiStep_snd]; rfl
  have h2 : (result.reverse.foldl guiStep ([], (0, 0))).2.2 = (reconciledPair result).2 := by
    rw [guiStep_snd]; rfl
  refine ⟨?_, ?_⟩
  · intro hz
    refine ⟨?_, ?_⟩
    · show update_torrent_result db _ = _
      simp only [update_torrent_result, hdb, h1, h2, hz]
    · show publish_torrent_result pop _ = none
      simp only [publish_torrent_result, h1, hz]
      rfl
  · intro hne
    by_contra h0
    have hz : (reconciledPair result).1 = 0 := by omega
    apply hne
    show publish_torrent_result pop _ = none
    simp only [publish_torrent_result, h1, hz]
    rfl

/-- Store for the C5 witness: one torrent with positive stored counts. -/
def c5_db : List (Nat × TorrentRecord) := [(42, ⟨3, 4, 100, []⟩)]

/-- The stored record of the C5 witness. -/
def c5_record : TorrentRecord := ⟨3, 4, 100, []⟩

/-- Witness for C5: a single successful outcome `(0, 7)` reconciles to
zero seeders and is not handed to the popularity community even though
it is available. -/
theorem claim_C5_witness :
    alLookup c5_db 42 = some c5_record
    ∧ (reconciledPair [Outcome.success "a" 0 7]).1 = 0
    ∧ (on_gui_request_completed 42 777 [Outcome.success "a" 0 7] c5_db true).published
        = none :=
  ⟨by decide, by decide,
   ((claim_C5_zero_seeders_not_published 42 777 [Outcome.success "a" 0 7] c5_db true
       c5_record (by decide)).1 (by decide)).2⟩

/-- C6: an on-demand health check of a torrent whose stored record
exists and was checked more recently than the minimum re-check
interval, with `scrape_now` false, short-circuits: the checker state
(in particular the session registry) is returned unchanged — no session
is created — and the stored seeders/leechers are returned immediately.
(The store is only read by `add_gui_request`; writes happen in the
completion callback, which is never scheduled on this path.) -/
theorem claim_C6_short_circuit (validUrl : String → Bool) (st : CheckerState)
    (db : List (Nat × TorrentRecord)) (infohash now interval : Nat)
    (r : TorrentRecord) (hdb : alLookup db infohash = some r)
    (hrecent : (now : Int) - (r.last_check : Int) < (interval : Int)) :
    add_gui_request validUrl st db infohash now interval false
      = (st, GuiResult.fromDb r.seeders r.leechers infohash) := by
  simp only [add_gui_request, hdb]
  rw [if_pos ⟨hrecent, trivial⟩]

/-- Witness for C6: with the stored record checked at `100`, `now = 500`
and interval `900`, the request returns the stored `(3, 4)` and the
state `c4_state` untouched. -/
theorem claim_C6_witness :
    alLookup c5_db 42 = some c5_record
    ∧ ((500 : Int) - ((100 : Nat) : Int) < ((900 : Nat) : Int))
    ∧ add_gui_request (fun _ => true) c4_state c5_db 42 500 900 false
        = (c4_state, GuiResult.fromDb 3 4 42) :=
  ⟨by decide, by decide,
   claim_C6_short_circuit (fun _ => true) c4_state c5_db 42 500 900 c5_record
     (by decide) (by decide)⟩

/-- The session retired twice in the C8 counterexample. -/
def c8_session : ProbeSession := ⟨3, "t", false⟩

/-- Checker state before the first retirement of `c8_session`. -/
def c8_state0 : CheckerState := ⟨false, [("DHT", []), ("t", [c8_session])], [], [("t", 0)], 4⟩

/-- Checker state after the first (successful) retirement of
`c8_session`: the `"t"` entry is gone from the registry. -/
def c8_state1 : CheckerState :=
  match clean_session c8_state0 c8_session with
  | Except.ok st => st
  | Except.error e => e.2

/-- C8 counterexample: retiring the same session twice does crash in
production. The first `clean_session` succeeds (removing the `"t"`
entry); the second raises a `KeyError` looking up `_session_list["t"]`
— after having reported the tracker outcome again and started a second
cleanup. -/
theorem claim_C8_counterexample :
    clean_session c8_state0 c8_session
      = Except.ok ⟨false, [("DHT", [])], [Defer.cleanup 3], [("t", 0)], 4⟩
    ∧ clean_session c8_state1 c8_session
      = Except.error (PyError.keyError,
          ⟨false, [("DHT", [])], [Defer.cleanup 3, Defer.cleanup 3], [("t", 0)], 4⟩) :=
  ⟨rfl, rfl⟩

/-- C8 amended: retiring a session that is no longer present in any
registered session list (as after its first retirement) raises a
`KeyError` or `ValueError` instead of returning; the raise happens
after the tracker info is re-updated and a second cleanup is started,
but before any registry mutation, so the registry mapping at the raise
point equals the mapping after the first retirement. -/
theorem claim_C8_amended (st : CheckerState) (s : ProbeSession)
    (h : ∀ l ∈ st.session_list.map Prod.snd, s ∉ l) :
    ∃ e st1, clean_session st s = Except.error (e, st1)
      ∧ st1.session_list = st.session_list
      ∧ st1.trackers = update_tracker_info st.trackers s.tracker_url (!s.is_failed)
      ∧ st1.session_stop_defer_list
          = st.session_stop_defer_list ++ [Defer.cleanup s.sid] := by
  cases hm : alLookup st.session_list s.tracker_url with
  | none =>
    refine ⟨PyError.keyError,
      { st with
          trackers := update_tracker_info st.trackers s.tracker_url (!s.is_failed),
          session_stop_defer_list := st.session_stop_defer_list ++ [Defer.cleanup s.sid] },
      ?_, rfl, rfl, rfl⟩
    simp only [clean_session, hm]
  | some l =>
    have hr : removeFirst l s = none :=
      removeFirst_eq_none (h l (alLookup_mem_values hm))
    refine ⟨PyError.valueError,
      { st with
          trackers := update_tracker_info st.trackers s.tracker_url (!s.is_failed),
          session_stop_defer_list := st.session_stop_defer_list ++ [Defer.cleanup s.sid] },
      ?_, rfl, rfl, rfl⟩
    simp only [clean_session, hm, hr]

/-- Witness for C8 amended at the concrete post-first-retirement state. -/
theorem claim_C8_witness :
    (∀ l ∈ c8_state1.session_list.map Prod.snd, c8_session ∉ l)
    ∧ ∃ e st1, clean_session c8_state1 c8_session = Except.error (e, st1)
        ∧ st1.session_list = c8_state1.session_list
        ∧ st1.trackers
            = update_tracker_info c8_state1.trackers c8_session.tracker_url
                (!c8_session.is_failed)
        ∧ st1.session_stop_defer_list
            = c8_state1.session_stop_defer_list ++ [Defer.cleanup c8_session.sid] :=
  ⟨by decide, claim_C8_amended c8_state1 c8_session (by decide)⟩

/-- C10: when every participant of an aggregated check fails,
`on_gui_request_completed` still persists the triple
`(seeders = 0, leechers = 0, now)` — overwriting whatever counts were
stored — and still emits the torrent-updated notification with those
zero counts. -/
theorem claim_C10_all_failed_persists_zero (infohash now : Nat)
    (result : List Outcome) (db : List (Nat × TorrentRecord)) (pop : Bool)
    (r : TorrentRecord) (hdb : alLookup db infohash = some r)
    (hf : ∀ o ∈ result, o.isSuccess = false) :
    (on_gui_request_completed infohash now result db pop).db
      = alSet db infohash { r with seeders := 0, leechers := 0, last_check := now }
    ∧ (on_gui_request_completed infohash now result db pop).notification
      = ⟨infohash, 0, 0, now, "updated"⟩ := by
  have hp : (result.reverse.foldl guiStep ([], (0, 0))).2 = ((0 : Nat), (0 : Nat)) := by
    rw [guiStep_snd]
    exact foldl_reconcile_all_failed (fun o ho => hf o (List.mem_reverse.1 ho)) (0, 0)
  have hp1 : (result.reverse.foldl guiStep ([], (0, 0))).2.1 = 0 := by rw [hp]
  have hp2 : (result.reverse.foldl guiStep ([], (0, 0))).2.2 = 0 := by rw [hp]
  constructor
  · show update_torrent_result db _ = _
    simp only [update_torrent_result, hdb, hp1, hp2]
  · show Notification.mk _ _ _ _ _ = _
    simp only [hp1, hp2]

/-- Store for the C10 witness, holding positive counts to overwrite. -/
def c10_db : List (Nat × TorrentRecord) := [(9, ⟨11, 22, 100, []⟩)]

/-- The stored record of the C10 witness. -/
def c10_record : TorrentRecord := ⟨11, 22, 100, []⟩

/-- Witness for C10: two failed participants, stored counts `(11, 22)`
overwritten by `(0, 0, 777)` and the notification carries zeros. -/
theorem claim_C10_witness :
    alLookup c10_db 9 = some c10_record
    ∧ (∀ o ∈ [Outcome.failure "a" "e1", Outcome.failure "b" "e2"],
        Outcome.isSuccess o = false)
    ∧ (on_gui_request_completed 9 777 [Outcome.failure "a" "e1", Outcome.failure "b" "e2"]
        c10_db true).db
      = alSet c10_db 9 { c10_record with seeders := 0, leechers := 0, last_check := 777 } :=
  ⟨by decide, by decide,
   (claim_C10_all_failed_persists_zero 9 777
     [Outcome.failure "a" "e1", Outcome.failure "b" "e2"] c10_db true c10_record
     (by decide) (by decide)).1⟩

/-- C9: the session-registry invariant — unique identities, the `"DHT"`
sentinel entry never removed even when its list is empty, and every
other identity present exactly while its session list is non-empty —
holds of the `__init__` state and is preserved by every session
creation (`_create_session_for_request`) and every retirement
(`clean_session`, whose failing calls leave the registry unchanged). -/
theorem claim_C9_registry_invariant (st : CheckerState) (url : String)
    (s : ProbeSession) (h : registryInv st.session_list) :
    (∀ tr, registryInv (initialState tr).session_list)
    ∧ registryInv (create_session_for_request st url).1.session_list
    ∧ (∀ st1, clean_session st s = Except.ok st1 → registryInv st1.session_list)
    ∧ (∀ e st1, clean_session st s = Except.error (e, st1) →
        st1.session_list = st.session_list) := by
  refine ⟨?_, ?_, ?_, ?_⟩
  · intro tr
    show registryInv [("DHT", [])]
    decide
  · cases hm : alLookup st.session_list url with
    | none =>
      simp only [create_session_for_request, hm]
      exact registryInv_append_new h _ hm
    | some l =>
      simp only [create_session_for_request, hm]
      exact registryInv_alSet h hm (l ++ [⟨st.next_sid, url, false⟩]) (fun _ => by simp)
  · intro st1 hok
    cases hm : alLookup st.session_list s.tracker_url with
    | none => simp [clean_session, hm] at hok
    | some l =>
      cases hr : removeFirst l s with
      | none => simp [clean_session, hm, hr] at hok
      | some l2 =>
        simp only [clean_session, hm, hr, Except.ok.injEq] at hok
        subst hok
        show registryInv
          (if l2 = [] ∧ s.tracker_url ≠ "DHT" then
            alDel (alSet st.session_list s.tracker_url l2) s.tracker_url
          else alSet st.session_list s.tracker_url l2)
        by_cases hc : l2 = [] ∧ s.tracker_url ≠ "DHT"
        · rw [if_pos hc]
          exact registryInv_alDel_alSet h hm l2 hc.2
        · rw [if_neg hc]
          refine registryInv_alSet h hm l2 (fun hu hl2 => ?_)
          exact hc ⟨hl2, hu⟩
  · intro e st1 herr
    cases hm : alLookup st.session_list s.tracker_url with
    | none =>
      simp only [clean_session, hm, Except.error.injEq, Prod.mk.injEq] at herr
      rw [← herr.2]
    | some l =>
      cases hr : removeFirst l s with
      | none =>
        simp only [clean_session, hm, hr, Except.error.injEq, Prod.mk.injEq] at herr
        rw [← herr.2]
      | some l2 => simp [clean_session, hm, hr] at herr

/-- Witness for C9 at a concrete one-session state satisfying the
invariant. -/
theorem claim_C9_witness :
    registryInv [("DHT", []), ("t", [(⟨3, "t", false⟩ : ProbeSession)])]
    ∧ registryInv
        (create_session_for_request
          ⟨false, [("DHT", []), ("t", [⟨3, "t", false⟩])], [], [("t", 0)], 4⟩
          "u").1.session_list :=
  ⟨by decide,
   (claim_C9_registry_invariant
     ⟨false, [("DHT", []), ("t", [⟨3, "t", false⟩])], [], [("t", 0)], 4⟩
     "u" ⟨3, "t", false⟩ (by decide)).2.1⟩

end TorrentChecker
